import Mathlib

/-!
# Verification of the pbjs Bitcoin library against its specification

This file is a shallow embedding, in Lean 4, of the Python sources of the
pbjs repository (`helper.py`, `ecc.py`, `script.py`, `op.py`, `network.py`,
`merkleblock.py`), together with theorems settling the claims of the
specification against that embedding.

Modelling conventions:

* Byte strings (`bytes`) are `List Nat` with every element `< 256`.
* Python integers are `Nat` (all integers handled here are non-negative);
  overflow-checked conversions (`int.to_bytes`) are modelled with explicit
  bound checks.
* Fallible Python code (code that can raise) is modelled in
  `Except String α`; the string carries the Python exception (its type and,
  where useful, its message).  Code paths that raise are modelled as
  `Except.error`.
* Python `while` loops whose termination is not structural are modelled
  with an explicit fuel parameter; fuel exhaustion returns a dedicated
  `"model: out of fuel"` error that no theorem below ever relies on
  (theorems either quantify over the fuel or use a fuel large enough,
  with the loop variant strictly decreasing each iteration).
* SHA-256 is an externally supplied primitive for the repository
  (spec §1); it is embedded here directly from FIPS 180-4 so that the
  definitions below are fully executable.
-/

namespace Pbjs

/-! ## Basic integer/byte codecs (helper.py) -/

/-- Modular exponentiation, the semantics of Python's three-argument
`pow(b, e, m)` (used by `FieldElement.__pow__`, `__truediv__` and by
`pow(sig.s, N - 2, N)` in `ecc.py`).  Implemented with a fuel argument so
that the kernel can evaluate it; the fuel `e + 1` always suffices because
the exponent strictly decreases on each recursive call. -/
def powModAux : Nat → Nat → Nat → Nat → Nat
  | 0, _, _, m => 1 % m
  | fuel + 1, b, e, m =>
    if e = 0 then 1 % m
    else
      let r := powModAux fuel ((b * b) % m) (e / 2) m
      if e % 2 = 1 then (r * b) % m else r

def powMod (b e m : Nat) : Nat := powModAux (e + 1) b e m

/-- `int_to_little_endian(n, length)` from helper.py: `n.to_bytes(length,
'little')`.  Python raises `OverflowError` when `n ≥ 256 ^ length`. -/
def leBytes : Nat → Nat → List Nat
  | _, 0 => []
  | n, k + 1 => n % 256 :: leBytes (n / 256) k

def int_to_little_endian (n length : Nat) : Except String (List Nat) :=
  if 256 ^ length ≤ n then .error "OverflowError: int too big to convert"
  else .ok (leBytes n length)

/-- `little_endian_to_int(b)` from helper.py: `int.from_bytes(b, 'little')`. -/
def little_endian_to_int (b : List Nat) : Nat :=
  b.foldr (fun byte acc => acc * 256 + byte) 0

/-- Big-endian bytes of `n` on exactly `k` bytes (`n.to_bytes(k, 'big')`
without the overflow check). -/
def beBytes : Nat → Nat → List Nat
  | 0, _ => []
  | k + 1, n => beBytes k (n / 256) ++ [n % 256]

/-- `n.to_bytes(k, byteorder="big")`, with Python's `OverflowError`. -/
def natToBytesBE (n k : Nat) : Except String (List Nat) :=
  if 256 ^ k ≤ n then .error "OverflowError: int too big to convert"
  else .ok (beBytes k n)

/-- `int.from_bytes(s, 'big')`. -/
def natOfBytesBE (s : List Nat) : Nat :=
  s.foldl (fun acc byte => acc * 256 + byte) 0

/-! ## read_varint / encode_varint (helper.py) -/

/-- `read_varint(s)` from helper.py.  The stream is a byte list; reading
past the end of an empty stream (`s.read(1)[0]`) raises `IndexError`,
while the multi-byte reads use Python's silent short reads. -/
def read_varint : List Nat → Except String (Nat × List Nat)
  | [] => .error "IndexError: index out of range"
  | i :: rest =>
    if i = 0xfd then .ok (little_endian_to_int (rest.take 2), rest.drop 2)
    else if i = 0xfe then .ok (little_endian_to_int (rest.take 4), rest.drop 4)
    else if i = 0xff then .ok (little_endian_to_int (rest.take 8), rest.drop 8)
    else .ok (i, rest)

/-- `encode_varint(i)` from helper.py, exactly as written: note that the
multi-byte branches serialize the literal `1` (`int_to_little_endian(1, n)`),
not `i`. -/
def encode_varint (i : Nat) : Except String (List Nat) :=
  if i < 0xfd then .ok [i]
  else if i < 0x10000 then do
    let b ← int_to_little_endian 1 2
    .ok (0xfd :: b)
  else if i < 0x100000000 then do
    let b ← int_to_little_endian 1 4
    .ok (0xfe :: b)
  else if i < 0x10000000000000000 then do
    let b ← int_to_little_endian 1 8
    .ok (0xff :: b)
  else .error "ValueError: integer too large"

/-! ## SHA-256 (externally supplied primitive, embedded from FIPS 180-4)

The repository treats SHA-256 as an external primitive (`hashlib.sha256`);
we embed it directly so that `hash256` and the checksums below are fully
executable.  Words are `Nat`s kept below `2 ^ 32` by explicit masking. -/

def w32 : Nat := 4294967296

def rotr32 (x n : Nat) : Nat := ((x >>> n) ||| (x <<< (32 - n))) % w32

def shaCh (x y z : Nat) : Nat := (x &&& y) ^^^ ((x ^^^ 0xffffffff) &&& z)

def shaMaj (x y z : Nat) : Nat := (x &&& y) ^^^ (x &&& z) ^^^ (y &&& z)

def bigSigma0 (x : Nat) : Nat := rotr32 x 2 ^^^ rotr32 x 13 ^^^ rotr32 x 22

def bigSigma1 (x : Nat) : Nat := rotr32 x 6 ^^^ rotr32 x 11 ^^^ rotr32 x 25

def smallSigma0 (x : Nat) : Nat := rotr32 x 7 ^^^ rotr32 x 18 ^^^ (x >>> 3)

def smallSigma1 (x : Nat) : Nat := rotr32 x 17 ^^^ rotr32 x 19 ^^^ (x >>> 10)

/-- The 64 round constants of FIPS 180-4 §4.2.2 (decimal). -/
def shaK : List Nat :=
  [1116352408, 1899447441, 3049323471, 3921009573, 961987163, 1508970993,
   2453635748, 2870763221, 3624381080, 310598401, 607225278, 1426881987,
   1925078388, 2162078206, 2614888103, 3248222580, 3835390401, 4022224774,
   264347078, 604807628, 770255983, 1249150122, 1555081692, 1996064986,
   2554220882, 2821834349, 2952996808, 3210313671, 3336571891, 3584528711,
   113926993, 338241895, 666307205, 773529912, 1294757372, 1396182291,
   1695183700, 1986661051, 2177026350, 2456956037, 2730485921, 2820302411,
   3259730800, 3345764771, 3516065817, 3600352804, 4094571909, 275423344,
   430227734, 506948616, 659060556, 883997877, 958139571, 1322822218,
   1537002063, 1747873779, 1955562222, 2024104815, 2227730452, 2361852424,
   2428436474, 2756734187, 3204031479, 3329325298]

/-- The initial hash state of FIPS 180-4 §5.3.3 (decimal). -/
def shaH0 : List Nat :=
  [1779033703, 3144134277, 1013904242, 2773480762,
   1359893119, 2600822924, 528734635, 1541459225]

/-- SHA-256 padding: append `0x80`, zero bytes up to 56 mod 64, then the
bit length on 8 big-endian bytes. -/
def shaPad (s : List Nat) : List Nat :=
  s ++ [0x80] ++ List.replicate ((119 - s.length % 64) % 64) 0
    ++ beBytes 8 ((8 * s.length) % (2 ^ 64))

/-- Split the (padded) message into 64-byte blocks. -/
def shaBlocks (s : List Nat) : List (List Nat) :=
  (List.range ((s.length + 63) / 64)).map (fun i => (s.drop (64 * i)).take 64)

/-- Group 4 big-endian bytes into one 32-bit word. -/
def bytesToWordsBE : List Nat → List Nat
  | b1 :: b2 :: b3 :: b4 :: rest =>
    (((b1 * 256 + b2) * 256 + b3) * 256 + b4) :: bytesToWordsBE rest
  | _ => []

/-- Extend the 16 message words of a block to the 64-entry schedule. -/
def shaExtend : Nat → List Nat → List Nat
  | 0, ws => ws
  | k + 1, ws =>
    let t := ws.length
    let nw := (smallSigma1 (ws.getD (t - 2) 0) + ws.getD (t - 7) 0
              + smallSigma0 (ws.getD (t - 15) 0) + ws.getD (t - 16) 0) % w32
    shaExtend k (ws ++ [nw])

/-- One SHA-256 round: state is `[a,b,c,d,e,f,g,h]`, `kw` is the pair of
round constant and schedule word. -/
def shaRound (st : List Nat) (kw : Nat × Nat) : List Nat :=
  match st with
  | [a, b, c, d, e, f, g, h] =>
    let t1 := (h + bigSigma1 e + shaCh e f g + kw.1 + kw.2) % w32
    let t2 := (bigSigma0 a + shaMaj a b c) % w32
    [(t1 + t2) % w32, a, b, c, (d + t1) % w32, e, f, g]
  | other => other

/-- Compress one 64-byte block into the running hash state. -/
def shaCompress (h : List Nat) (block : List Nat) : List Nat :=
  let ws := shaExtend 48 (bytesToWordsBE block)
  let st := (shaK.zip ws).foldl shaRound h
  List.zipWith (fun x y => (x + y) % w32) h st

/-- Serialize the 8 hash words to 32 big-endian bytes. -/
def wordsToBytesBE (ws : List Nat) : List Nat :=
  ws.flatMap (fun w => [(w >>> 24) &&& 255, (w >>> 16) &&& 255,
                        (w >>> 8) &&& 255, w &&& 255])

/-- SHA-256 of a byte string (`hashlib.sha256(s).digest()`). -/
def sha256 (s : List Nat) : List Nat :=
  wordsToBytesBE ((shaBlocks (shaPad s)).foldl shaCompress shaH0)

/-- `hash256(s)` from helper.py: two rounds of SHA-256. -/
def hash256 (s : List Nat) : List Nat := sha256 (sha256 s)

/-- `hash160(s)` from helper.py, exactly as written:
`hashlib.new("ripemd160", hashlib.sha256(2).digest()).digest()`.
The inner call hashes the literal integer `2`, not the argument `s`;
`hashlib.sha256(2)` raises `TypeError` (an `int` does not support the
buffer API), so every call of `hash160` raises, whatever `s` is. -/
def hash160 (_s : List Nat) : Except String (List Nat) :=
  .error "TypeError: object supporting the buffer API required"

/-- `merkle_parent(h1, h2)` from helper.py. -/
def merkle_parent (h1 h2 : List Nat) : List Nat := hash256 (h1 ++ h2)

/-! ## Base58 (helper.py)

Python strings of base-58 characters are modelled as lists of their ASCII
codes. -/

/-- `BASE58_ALPHABET`, as ASCII codes
(`"123456789ABCDEFGHJKLMNPQRSTUVWXYZabcdefghijkmnopqrstuvwxyz"`). -/
def b58Alphabet : List Nat :=
  [49, 50, 51, 52, 53, 54, 55, 56, 57,
   65, 66, 67, 68, 69, 70, 71, 72, 74, 75, 76, 77, 78,
   80, 81, 82, 83, 84, 85, 86, 87, 88, 89, 90,
   97, 98, 99, 100, 101, 102, 103, 104, 105, 106, 107, 109, 110,
   111, 112, 113, 114, 115, 116, 117, 118, 119, 120, 121, 122]

/-- `BASE58_ALPHABET[d]` (indexing a Python string; all uses have
`d < 58`). -/
def b58Char (d : Nat) : Nat := b58Alphabet.getD d 0

/-- `BASE58_ALPHABET.index(c)`; `none` models the `ValueError` Python's
`str.index` raises when the character is absent. -/
def b58Index (c : Nat) : Option Nat := b58Alphabet.indexOf? c

/-- The `while num > 0` digit loop of `encode_base58`, producing the
base-58 characters most-significant first.  Fuel-based (the quotient
strictly decreases); `n + 1` fuel always suffices. -/
def b58DigitsAux : Nat → Nat → List Nat
  | 0, _ => []
  | fuel + 1, n =>
    if n = 0 then []
    else b58DigitsAux fuel (n / 58) ++ [b58Char (n % 58)]

def b58Digits (n : Nat) : List Nat := b58DigitsAux (n + 1) n

/-- The leading-zero-byte count loop of `encode_base58`. -/
def b58ZeroCount (s : List Nat) : Nat := (s.takeWhile (fun c => c == 0)).length

/-- `encode_base58(s)` from helper.py: `'1' * count` (ASCII 49) followed by
the base-58 digits of `int.from_bytes(s, 'big')`. -/
def encode_base58 (s : List Nat) : List Nat :=
  List.replicate (b58ZeroCount s) 49 ++ b58Digits (natOfBytesBE s)

/-- `encode_base58_checksum(b)` from helper.py. -/
def encode_base58_checksum (b : List Nat) : List Nat :=
  encode_base58 (b ++ (hash256 b).take 4)

/-- The `for c in s` accumulation loop of `decode_base58`. -/
def b58DecodeNum : List Nat → Nat → Except String Nat
  | [], acc => .ok acc
  | c :: cs, acc =>
    match b58Index c with
    | none => .error "ValueError: substring not found"
    | some i => b58DecodeNum cs (acc * 58 + i)

/-- `decode_base58(s)` from helper.py.  It rebuilds the number, converts it
to exactly 25 big-endian bytes, re-checks the 4-byte checksum, and returns
`combined[1:-4]` — the payload *without* its first (version) byte. -/
def decode_base58 (s : List Nat) : Except String (List Nat) :=
  do
  let num ← b58DecodeNum s 0
  let combined ← natToBytesBE num 25
  let checksum := combined.drop (combined.length - 4)
  if (hash256 (combined.take (combined.length - 4))).take 4 ≠ checksum then
    .error "ValueError: bad address"
  else
    .ok ((combined.take (combined.length - 4)).drop 1)

/-! ## FieldElement and Point (ecc.py)

`FieldElement` instances are `(num, prime)` pairs.  The class defines
`__add__`, `__sub__`, `__mul__`, `__pow__`, `__truediv__`, `__eq__`,
`__ne__` — and, crucially, **no `__rmul__`**: an expression `int * FieldElement`
(as in the tangent branch of `Point.__add__`: `3 * pow(self.x, 2)` and
`2 * self.y`) raises `TypeError` in Python.  That branch is therefore
modelled as an unconditional error. -/

structure FE where
  num : Nat
  prime : Nat
deriving DecidableEq, Repr

/-- `FieldElement.__init__` range check (`0 ≤ num < prime`; `num` is a
`Nat`, so only the upper check is modelled). -/
def mkFE (num prime : Nat) : Except String FE :=
  if prime ≤ num then .error "ValueError: Num not in field range"
  else .ok ⟨num, prime⟩

/-- `FieldElement.__eq__`. -/
def feEq (a b : FE) : Bool := a.num == b.num && a.prime == b.prime

def feAdd (a b : FE) : Except String FE :=
  if a.prime ≠ b.prime then .error "TypeError: Cannot add two numbers in different fields"
  else mkFE ((a.num + b.num) % a.prime) a.prime

def feSub (a b : FE) : Except String FE :=
  if a.prime ≠ b.prime then .error "TypeError: Cannot subtract two numbers in different fields"
  else mkFE ((a.num + (a.prime - b.num % a.prime)) % a.prime) a.prime

/-- `FieldElement.__pow__`: the source computes `n = exponent % (prime - 1)`
but then calls `pow(self.num, exponent, self.prime)` with the *unreduced*
exponent (a bug the spec notes); we model exactly that call.  Python's
`pow` with modulus `0` raises `ValueError`. -/
def fePow (a : FE) (e : Nat) : Except String FE :=
  if a.prime = 0 then .error "ValueError: pow modulus cannot be 0"
  else mkFE (powMod a.num e a.prime) a.prime

def feMul (a b : FE) : Except String FE :=
  if a.prime ≠ b.prime then .error "TypeError: Cannot multiply two numbers in different fields"
  else mkFE ((a.num * b.num) % a.prime) a.prime

/-- `FieldElement.__truediv__`: `(self.num * pow(other.num, p - 2, p)) % p`. -/
def feDiv (a b : FE) : Except String FE :=
  if a.prime ≠ b.prime then .error "TypeError: Cannot divide two numbers in different fields"
  else mkFE ((a.num * powMod b.num (a.prime - 2) a.prime) % a.prime) a.prime

/-- A point: `x = y = none` is the point at infinity (the source uses
`None` coordinates). -/
structure Pt where
  x : Option FE
  y : Option FE
  a : FE
  b : FE
deriving DecidableEq, Repr

/-- `Point.__eq__` (None == None is True, None == FieldElement is False). -/
def optFeEq : Option FE → Option FE → Bool
  | none, none => true
  | some u, some v => feEq u v
  | _, _ => false

def ptEq (p q : Pt) : Bool :=
  optFeEq p.x q.x && optFeEq p.y q.y && feEq p.a q.a && feEq p.b q.b

/-- `Point.__init__`: accept both-None (infinity); otherwise check the
curve equation `y² == x³ + a·x + b` (in evaluation order); a single `None`
coordinate makes `self.x ** 3` raise `TypeError`. -/
def mkPt (x y : Option FE) (a b : FE) : Except String Pt :=
  match x, y with
  | none, none => .ok ⟨none, none, a, b⟩
  | some xf, some yf => do
    let y2 ← fePow yf 2
    let x3 ← fePow xf 3
    let ax ← feMul a xf
    let rhs1 ← feAdd x3 ax
    let rhs ← feAdd rhs1 b
    if feEq y2 rhs then .ok ⟨some xf, some yf, a, b⟩
    else .error "ValueError: point is not on the curve"
  | _, _ => .error "TypeError: unsupported operand type(s) for ** or pow()"

/-- `Point.__add__`, with the five cases in exactly the source's order.
The "both points at the same spot" branch computes
`slope = (3 * pow(self.x, 2) + self.a) / (2 * self.y)`; its very first
operation `3 * pow(self.x, 2)` multiplies an `int` by a `FieldElement`,
and `FieldElement` defines no `__rmul__`, so Python raises `TypeError`
before anything else in the branch: the branch is an unconditional error.
The dead `self == other and self.y == 0 * self.x` case below it is
unreachable (the previous branch already catches `self == other`). -/
def ptAdd (p q : Pt) : Except String Pt :=
  if !feEq p.a q.a || !feEq p.b q.b then
    .error "TypeError: points are not on the same curve"
  else if p.x.isNone then .ok q
  else if q.x.isNone then .ok p
  else if optFeEq p.x q.x && !optFeEq p.y q.y then
    -- vertical line
    .ok ⟨none, none, p.a, p.b⟩
  else if !optFeEq p.x q.x then
    -- chord: P1(x,y) != P2(x,y)
    match p.x, p.y, q.x, q.y with
    | some x1, some y1, some x2, some y2 => do
      let n ← feSub y2 y1
      let d ← feSub x2 x1
      let slope ← feDiv n d
      let s2 ← fePow slope 2
      let t ← feSub s2 x1
      let x3 ← feSub t x2
      let u ← feSub x1 x3
      let v ← feMul slope u
      let y3 ← feSub v y1
      mkPt (some x3) (some y3) p.a p.b
    | _, _, _, _ => .error "TypeError: unsupported operand type(s) for -"
  else if ptEq p q then
    -- tangent: `3 * pow(self.x, 2)` is int * FieldElement -> TypeError
    .error "TypeError: unsupported operand type(s) for *: 'int' and 'FieldElement'"
  else
    -- unreachable fall-through (Python would return None; the dead y == 0
    -- branch would itself raise on `0 * self.x`)
    .error "model: unreachable fall-through in Point.__add__"

/-! ## secp256k1 (ecc.py: S256Field, S256Point, PrivateKey, Signature) -/

/-- Group order `N` from ecc.py. -/
def secN : Nat := 0xfffffffffffffffffffffffffffffffebaaedce6af48a03bbfd25e8cd0364141

/-- Field prime `P = 2^256 - 2^32 - 977` from ecc.py. -/
def secP : Nat := 2 ^ 256 - 2 ^ 32 - 977

def secA : FE := ⟨0, secP⟩
def secB : FE := ⟨7, secP⟩

/-- The generator `G` from ecc.py. -/
def secG : Pt :=
  ⟨some ⟨0x79be667ef9dcbbac55a06295ce870b07029bfcdb2dce28d959f2815b16f81798, secP⟩,
   some ⟨0x483ada7726a3c4655da4fbfc0e1108a8fd17b448a68554199c47d08ffb10d4b8, secP⟩,
   secA, secB⟩

/-- The point at infinity `self.__class__(None, None, self.a, self.b)`
created by `Point.__rmul__` for an S256 point. -/
def secInf : Pt := ⟨none, none, secA, secB⟩

/-- The `while coef:` loop of `Point.__rmul__` (double-and-add).  Each
iteration may raise through `Point.__add__`; note `current += current`
runs on *every* iteration, including the last.  Fuel-based: `coef`
strictly decreases, so `coef + 1` fuel always suffices. -/
def rmulLoopAux : Nat → Nat → Pt → Pt → Except String Pt
  | 0, _, _, _ => .error "model: out of fuel"
  | fuel + 1, coef, current, result =>
    if coef = 0 then .ok result
    else do
      let result' ← if coef % 2 = 1 then ptAdd result current else .ok result
      let current' ← ptAdd current current
      rmulLoopAux fuel (coef / 2) current' result'

/-- `S256Point.__rmul__(coefficient)`: reduce the coefficient mod `N`,
then run the generic double-and-add loop starting from infinity. -/
def s256rmul (p : Pt) (coefficient : Nat) : Except String Pt :=
  rmulLoopAux (coefficient % secN + 1) (coefficient % secN) p secInf

/-- `total.x.num` / `(k * G).x.num`: accessing `.num` on a `None`
x-coordinate raises `AttributeError`. -/
def getXnum (p : Pt) : Except String Nat :=
  match p.x with
  | none => .error "AttributeError: 'NoneType' object has no attribute 'num'"
  | some f => .ok f.num

/-- `S256Point.verify(z, sig)` from ecc.py, exactly as written: no range
check on `r` or `s`, no point-at-infinity check, and the final comparison
is `total.x.num == sig.r` (no reduction mod `N`). -/
def s256verify (p : Pt) (z r s : Nat) : Except String Bool :=
  let s_inv := powMod s (secN - 2) secN
  let u := z * s_inv % secN
  let v := r * s_inv % secN
  do
  let t1 ← s256rmul secG u
  let t2 ← s256rmul p v
  let total ← ptAdd t1 t2
  let xnum ← getXnum total
  .ok (xnum == r)

/-- `PrivateKey.__init__(secret)`: stores the secret and computes the
public point `secret * G`. -/
structure PrivKey where
  secret : Nat
  point : Pt
deriving Repr

def mkPrivateKey (secret : Nat) : Except String PrivKey :=
  do
  let p ← s256rmul secG secret
  .ok ⟨secret, p⟩

/-- The body of `PrivateKey.sign(z)` after `k = self.deterministic_k(z)`:
`r = (k * G).x.num`, `k_inv = pow(k, N - 2, N)`,
`s = (z + r * secret) * k_inv % N`, low-S flip.  `deterministic_k` (RFC
6979 HMAC loop) only guarantees `1 ≤ k < N`; the theorems below quantify
over every such `k`.  (The flip compares `s > N / 2`, a float in Python;
the branch is unreachable in this development — `k * G` raises first — so
the exact halving used here cannot affect any result.) -/
def sign_with_k (k z secret : Nat) : Except String (Nat × Nat) :=
  do
  let kG ← s256rmul secG k
  let r ← getXnum kG
  let k_inv := powMod k (secN - 2) secN
  let s := (z + r * secret) * k_inv % secN
  let s' := if s > secN / 2 then secN - s else s
  .ok (r, s')

/-! ## Script (script.py, op.py)

A script command is either an opcode (`int`) or pushed data (`bytes`). -/

inductive Cmd where
  | op : Nat → Cmd
  | data : List Nat → Cmd
deriving DecidableEq, Repr

/-- `p2pkh_script(h160)` from script.py:
`Script([0x76, 0xa9, h160, 0x88, 0xac])`. -/
def p2pkh_script (h160 : List Nat) : List Cmd :=
  [.op 0x76, .op 0xa9, .data h160, .op 0x88, .op 0xac]

/-- `Script.raw_serialize` from script.py, exactly as written: note the
first data branch is `length < 75` (not `<= 75`), so a 75-byte push falls
through every branch into `raise ValueError('too long an cmd')`. -/
def raw_serialize : List Cmd → Except String (List Nat)
  | [] => .ok []
  | .op n :: rest => do
    let b ← int_to_little_endian n 1
    let tail ← raw_serialize rest
    .ok (b ++ tail)
  | .data d :: rest => do
    let length := d.length
    let chunk ←
      if length < 75 then do
        let b ← int_to_little_endian length 1
        .ok (b ++ d)
      else if length > 75 && length < 0x100 then do
        let m ← int_to_little_endian 76 1
        let b ← int_to_little_endian length 1
        .ok (m ++ b ++ d)
      else if length ≥ 0x100 && length ≤ 520 then do
        let m ← int_to_little_endian 77 1
        let b ← int_to_little_endian length 2
        .ok (m ++ b ++ d)
      else .error "ValueError: too long an cmd"
    let tail ← raw_serialize rest
    .ok (chunk ++ tail)

/-- `op_dup` from op.py: `(handler result, new stack)`.  Stacks grow at
the Python list's end; we model the stack with its top at the head. -/
def op_dup : List (List Nat) → Except String (Bool × List (List Nat))
  | [] => .ok (false, [])
  | t :: r => .ok (true, t :: t :: r)

/-- `op_hash256` from op.py. -/
def op_hash256 : List (List Nat) → Except String (Bool × List (List Nat))
  | [] => .ok (false, [])
  | t :: r => .ok (true, hash256 t :: r)

/-- `op_hash160` from op.py: pops the top element and pushes
`hash160(element)` — which always raises (see `hash160` above). -/
def op_hash160 : List (List Nat) → Except String (Bool × List (List Nat))
  | [] => .ok (false, [])
  | t :: r => do
    let h ← hash160 t
    .ok (true, h :: r)

/-- `operation = OP_CODE_FUNCTIONS[cmd]` followed by the opcode-class
dispatch in `Script.evaluate`.  `OP_CODE_FUNCTIONS` maps *only*
`{118: op_dup, 170: op_hash256, 169: op_hash160}`; every other opcode —
including 99/100, 107/108 and 172/173/274/175 named in the later `elif`s
(note the source's `274` for 174) — raises `KeyError` at the lookup,
before those `elif`s can run.  The three present opcodes all fall into
the final `else: operation(stack)` branch. -/
def dispatchOp (cmd : Nat) (stack : List (List Nat)) :
    Except String (Bool × List (List Nat)) :=
  if cmd = 118 then op_dup stack
  else if cmd = 170 then op_hash256 stack
  else if cmd = 169 then op_hash160 stack
  else .error "KeyError: opcode not in OP_CODE_FUNCTIONS"

/-- The p2sh-pattern test in `Script.evaluate`:
`len(cmds) == 3 and cmds[0] == 0xa9 and type(cmds[1]) == bytes and
len(cmds[1]) == 20 and cmds[2] == 0x87`. -/
def p2shPattern : List Cmd → Bool
  | [.op 169, .data h, .op 135] => h.length == 20
  | _ => false

/-- `Script.evaluate(z)` from script.py.  The p2sh branch pops the three
pattern commands and calls `op_hash160(stack)`, which raises (see
`hash160`); its remainder (`op_equal`, `op_verify`, the redeem-script
splice) is unreachable — indeed `op_equal`/`op_verify` do not exist in
op.py (the module-level `from op import op_equal, ... op_verify` raises
`ImportError`), and `encode_varint(len(cmd) + cmd)` would raise
`TypeError`.  Because the command stream therefore never grows, the loop
is structural recursion on `cmds`. -/
def script_evaluate_loop (cmds : List Cmd) (stack altstack : List (List Nat))
    (z : Nat) : Except String Bool :=
  match cmds with
  | [] =>
    match stack with
    | [] => .ok false
    | t :: _ => .ok (!(t == []))
  | .op n :: cs => do
    let (ok, stack') ← dispatchOp n stack
    if ok then script_evaluate_loop cs stack' altstack z else .ok false
  | .data d :: cs =>
    let stack' := d :: stack
    if p2shPattern cs then do
      let (ok, _stack'') ← op_hash160 stack'
      if !ok then .ok false
      else .error "NameError: op_equal is not defined (ImportError at module load)"
    else script_evaluate_loop cs stack' altstack z

def script_evaluate (cmds : List Cmd) (z : Nat) : Except String Bool :=
  script_evaluate_loop cmds [] [] z

/-! ## NetworkEnvelope (network.py) -/

/-- The two magic constants from network.py, exactly as (mis)named there:
`TESTNET_NETWORK_MAGIC = b'\xf9\xbe\xb4\xd9'` and
`NETWORK_MAGIC = b'\x0b\x11\x09\x07'`. -/
def TESTNET_NETWORK_MAGIC : List Nat := [0xf9, 0xbe, 0xb4, 0xd9]
def NETWORK_MAGIC : List Nat := [0x0b, 0x11, 0x09, 0x07]

structure NetworkEnvelope where
  command : List Nat
  payload : List Nat
  magic : List Nat
deriving DecidableEq, Repr

/-- `NetworkEnvelope.__init__(command, payload, testnet)`: picks
`TESTNET_NETWORK_MAGIC` when `testnet` else `NETWORK_MAGIC`. -/
def mkEnvelope (command payload : List Nat) (testnet : Bool) : NetworkEnvelope :=
  ⟨command, payload, if testnet then TESTNET_NETWORK_MAGIC else NETWORK_MAGIC⟩

/-- `NetworkEnvelope.serialize`: magic, NUL-padded command (12 bytes),
payload length (LE32, `OverflowError` above `2^32`), `hash256(payload)[:4]`,
payload. -/
def envSerialize (e : NetworkEnvelope) : Except String (List Nat) :=
  do
  let lenB ← int_to_little_endian e.payload.length 4
  .ok (e.magic ++ (e.command ++ List.replicate (12 - e.command.length) 0)
       ++ lenB ++ (hash256 e.payload).take 4 ++ e.payload)

/-- `bytes.strip(b'\x00')`: strips NULs from both ends. -/
def stripNulls (l : List Nat) : List Nat :=
  ((l.dropWhile (fun b => b == 0)).reverse.dropWhile (fun b => b == 0)).reverse

/-- `NetworkEnvelope.parse(s, testnet)` from network.py, exactly as
written.  Two source defects are modelled faithfully: (1) the *expected*
magic uses the constants crosswise to the constructor (`NETWORK_MAGIC`
when testnet, `TESTNET_NETWORK_MAGIC` otherwise); (2) the checksum is
computed as `hash256(payload_length)[:4]` — `payload_length` is an `int`,
and `hashlib.sha256(int)` raises `TypeError`, so a parse that passes the
magic check always raises before the checksum comparison. -/
def envParse (s : List Nat) (testnet : Bool) : Except String NetworkEnvelope :=
  let magic := s.take 4
  if magic = [] then .error "IOError: Connection reset!"
  else
    let expected := if testnet then NETWORK_MAGIC else TESTNET_NETWORK_MAGIC
    if magic ≠ expected then .error "SyntaxError: magic is not right"
    else
      let s1 := s.drop 4
      let _command := stripNulls (s1.take 12)
      let s2 := s1.drop 12
      let payload_length := little_endian_to_int (s2.take 4)
      let s3 := s2.drop 4
      let _checksum := s3.take 4
      let _payload := (s3.drop 4).take payload_length
      -- calculated_checksum = hash256(payload_length)[:4]
      .error "TypeError: object supporting the buffer API required"

/-! ## MerkleTree (merkleblock.py)

The tree is a list of levels of optional hashes with a cursor
`(current_depth, current_index)`.  `up()` decrements `current_depth`
below zero when called at the root, so the depth is an `Int`, and list
indexing follows Python semantics (negative indices wrap from the end). -/

/-- Python list indexing `l[i]` (negative indices count from the end;
out-of-range raises `IndexError`). -/
def pyIdx (l : List α) (i : Int) : Except String α :=
  if 0 ≤ i then
    match l.get? i.toNat with
    | some a => .ok a
    | none => .error "IndexError: list index out of range"
  else
    let k := (-i).toNat
    if l.length < k then .error "IndexError: list index out of range"
    else
      match l.get? (l.length - k) with
      | some a => .ok a
      | none => .error "IndexError: list index out of range"

/-- Python list element assignment `l[i] = v` (same index semantics). -/
def pySet (l : List α) (i : Int) (v : α) : Except String (List α) :=
  if 0 ≤ i then
    if i.toNat < l.length then .ok (l.set i.toNat v) else .error "IndexError: list assignment index out of range"
  else
    let k := (-i).toNat
    if l.length < k then .error "IndexError: list assignment index out of range"
    else .ok (l.set (l.length - k) v)

structure MTState where
  total : Nat
  maxDepth : Nat
  nodes : List (List (Option (List Nat)))
  curDepth : Int
  curIndex : Nat
deriving DecidableEq, Repr

/-- `math.ceil(total / 2 ** k)`, exact (the Python float quotient is exact
for the magnitudes involved). -/
def ceilDiv (a b : Nat) : Nat := (a + b - 1) / b

/-- `⌈log₂ n⌉` for `n ≥ 1`: the least `d` with `n ≤ 2 ^ d`.  (Defined by
searching so the kernel can evaluate it; `d = n` always satisfies the
bound, so the search never falls through to the default.) -/
def ceilLog2 (n : Nat) : Nat :=
  ((List.range (n + 1)).find? (fun d => n ≤ 2 ^ d)).getD 0

/-- `MerkleTree.__init__(total)`: `max_depth = math.ceil(math.log(total, 2))`
(modelled exactly as `⌈log₂ total⌉`, its value for every `total ≥ 1` where
the float logarithm is exact) and one level of
`math.ceil(total / 2 ** (max_depth - depth))` empty slots per depth. -/
def initTree (total : Nat) : MTState :=
  let maxDepth := ceilLog2 total
  { total := total
    maxDepth := maxDepth
    nodes := (List.range (maxDepth + 1)).map
      (fun depth => List.replicate (ceilDiv total (2 ^ (maxDepth - depth))) none)
    curDepth := 0
    curIndex := 0 }

def mtUp (st : MTState) : MTState :=
  { st with curDepth := st.curDepth - 1, curIndex := st.curIndex / 2 }

def mtLeft (st : MTState) : MTState :=
  { st with curDepth := st.curDepth + 1, curIndex := st.curIndex * 2 }

def mtRight (st : MTState) : MTState :=
  { st with curDepth := st.curDepth + 1, curIndex := st.curIndex * 2 + 1 }

/-- `set_current_node(value)`: `self.nodes[d][i] = value`. -/
def mtSetCurrent (st : MTState) (v : Option (List Nat)) : Except String MTState :=
  do
  let row ← pyIdx st.nodes st.curDepth
  let row' ← pySet row (Int.ofNat st.curIndex) v
  let nodes' ← pySet st.nodes st.curDepth row'
  .ok { st with nodes := nodes' }

/-- The `while self.root() is None` loop of `MerkleTree.populate_tree`,
one faithful step per fuel unit; on exit it returns the state together
with the *remaining* `flag_bits` and `hashes` (Python pops them in
place). -/
def populateLoop : Nat → MTState → List Nat → List (List Nat) →
    Except String (MTState × List Nat × List (List Nat))
  | 0, _, _, _ => .error "model: out of fuel"
  | fuel + 1, st, flags, hashes => do
    let rootRow ← pyIdx st.nodes 0
    let root ← pyIdx rootRow 0
    match root with
    | some _ => .ok (st, flags, hashes)
    | none =>
      if st.curDepth == (st.maxDepth : Int) then
        -- leaf: pop one flag bit (discarded), pop one hash, set it, go up
        match flags with
        | [] => .error "IndexError: pop from empty list"
        | _f :: fs =>
          match hashes with
          | [] => .error "IndexError: pop from empty list"
          | h :: hs => do
            let st' ← mtSetCurrent st (some h)
            populateLoop fuel (mtUp st') fs hs
      else do
        let row ← pyIdx st.nodes (st.curDepth + 1)
        let leftHash ← pyIdx row (Int.ofNat (st.curIndex * 2))
        match leftHash with
        | none =>
          match flags with
          | [] => .error "IndexError: pop from empty list"
          | f :: fs =>
            if f = 0 then
              match hashes with
              | [] => .error "IndexError: pop from empty list"
              | h :: hs => do
                let st' ← mtSetCurrent st (some h)
                populateLoop fuel (mtUp st') fs hs
            else populateLoop fuel (mtLeft st) fs hashes
        | some lh =>
          if decide (st.curIndex * 2 + 1 < row.length) then do
            let rightHash ← pyIdx row (Int.ofNat (st.curIndex * 2 + 1))
            match rightHash with
            | none => populateLoop fuel (mtRight st) flags hashes
            | some rh => do
              let st' ← mtSetCurrent st (some (merkle_parent lh rh))
              populateLoop fuel (mtUp st') flags hashes
          else do
            let st' ← mtSetCurrent st (some (merkle_parent lh lh))
            populateLoop fuel (mtUp st') flags hashes

/-- The post-loop checks of `populate_tree`, exactly as written:
`if len(hashes) != 0: raise RuntimeError(...)` and then
`for flag_bit in flag_bits: if flag_bit != 0: raise RuntimeError(...)`.
Remaining *zero* flag bits pass the second check. -/
def populateChecks (st : MTState) (flags : List Nat) (hashes : List (List Nat)) :
    Except String MTState :=
  if hashes.length ≠ 0 then .error "RuntimeError: hashes not all consumes"
  else if flags.any (fun b => b ≠ 0) then .error "RuntimeError: flag bits not all consumed"
  else .ok st

/-- `MerkleTree.populate_tree(flag_bits, hashes)` with explicit fuel. -/
def populate_tree (fuel total : Nat) (flags : List Nat)
    (hashes : List (List Nat)) : Except String MTState :=
  do
  let (st, fs, hs) ← populateLoop fuel (initTree total) flags hashes
  populateChecks st fs hs

/-- Whether an `Except` computed normally (no Python exception). -/
def isOkE : Except String α → Bool
  | .ok _ => true
  | .error _ => false

/-! ## Helper lemmas -/

/-- Doubling the generator hits the tangent branch of `Point.__add__`,
which raises `TypeError` (`3 * pow(self.x, 2)` with no
`FieldElement.__rmul__`). -/
theorem ptAdd_secG_secG :
    ptAdd secG secG =
      .error "TypeError: unsupported operand type(s) for *: 'int' and 'FieldElement'" := by
  rfl

theorem ptAdd_secInf_secG : ptAdd secInf secG = .ok secG := by rfl

/-- The double-and-add loop of `__rmul__` raises on its very first
iteration whenever the (reduced) coefficient is nonzero, because
`current += current` doubles `G` before the loop condition is re-checked. -/
theorem rmulLoopAux_secG_err (fuel k : Nat) (hk : k ≠ 0) :
    rmulLoopAux (fuel + 1) k secG secInf =
      .error "TypeError: unsupported operand type(s) for *: 'int' and 'FieldElement'" := by
  rw [rmulLoopAux]
  rw [if_neg hk]
  by_cases h2 : k % 2 = 1
  · rw [if_pos h2]
    rw [ptAdd_secInf_secG, ptAdd_secG_secG]
    rfl
  · rw [if_neg h2]
    rw [ptAdd_secG_secG]
    rfl

/-- `k * G` raises `TypeError` for every coefficient not divisible by `N`. -/
theorem s256rmul_secG_err (k : Nat) (hk : k % secN ≠ 0) :
    s256rmul secG k =
      .error "TypeError: unsupported operand type(s) for *: 'int' and 'FieldElement'" := by
  unfold s256rmul
  exact rmulLoopAux_secG_err _ _ hk

/-- `0 * G` returns the point at infinity (the loop body never runs). -/
theorem s256rmul_secG_zero : s256rmul secG 0 = .ok secInf := by rfl

theorem secN_pos : 0 < secN := by decide

/-! ## Claim theorems -/

/-- C1: the claim asserts `sk.public.verify(z, sk.sign(z)) == true` for
every secret in `[1, n)`.  On this code neither side can even be computed:
`PrivateKey.__init__` evaluates `secret * G` and `sign` evaluates `k * G`
(for the RFC 6979 nonce `k ∈ [1, n)`), and every scalar multiplication by
a nonzero coefficient raises `TypeError`, because the tangent branch of
`Point.__add__` multiplies an `int` by a `FieldElement` and `FieldElement`
defines no `__rmul__`.  So constructing the key raises, and signing would
raise for every possible nonce. -/
theorem c1_sign_verify_roundtrip_raises :
    (∀ secret : Nat, 1 ≤ secret → secret < secN →
      mkPrivateKey secret =
        .error "TypeError: unsupported operand type(s) for *: 'int' and 'FieldElement'") ∧
    (∀ k z secret : Nat, 1 ≤ k → k < secN →
      sign_with_k k z secret =
        .error "TypeError: unsupported operand type(s) for *: 'int' and 'FieldElement'") := by
  constructor
  · intro secret h1 h2
    unfold mkPrivateKey
    rw [s256rmul_secG_err secret (by rw [Nat.mod_eq_of_lt h2]; omega)]
    rfl
  · intro k z secret h1 h2
    unfold sign_with_k
    rw [s256rmul_secG_err k (by rw [Nat.mod_eq_of_lt h2]; omega)]
    rfl

theorem c1_sign_verify_roundtrip_raises_witness :
    mkPrivateKey 1 =
      .error "TypeError: unsupported operand type(s) for *: 'int' and 'FieldElement'" ∧
    sign_with_k 1 0 1 =
      .error "TypeError: unsupported operand type(s) for *: 'int' and 'FieldElement'" :=
  ⟨c1_sign_verify_roundtrip_raises.1 1 (by decide) (by decide),
   c1_sign_verify_roundtrip_raises.2 1 0 1 (by decide) (by decide)⟩

/-- C2: the claim says `verify` *rejects* (returns false) out-of-range
`r`/`s` and otherwise returns the boolean verdict of the ECDSA equation.
On this code `verify` never returns a boolean at all: it performs no range
check, and for every `(z, r, s)` it raises — `TypeError` from `u * G` or
`v * P` when the scalar is nonzero mod `n` (missing
`FieldElement.__rmul__`), and otherwise `AttributeError` from
`total.x.num` where `total` is the point at infinity (whose `x` is
`None`). -/
theorem c2_verify_always_raises (z r s : Nat) :
    ∃ e, s256verify secG z r s = .error e := by
  simp only [s256verify]
  set s_inv := powMod s (secN - 2) secN with hsinv
  by_cases hu : z * s_inv % secN = 0
  · rw [hu, s256rmul_secG_zero]
    by_cases hv : r * s_inv % secN = 0
    · rw [hv, s256rmul_secG_zero]
      exact ⟨_, rfl⟩
    · rw [s256rmul_secG_err _ (by rw [Nat.mod_mod_of_dvd _ dvd_rfl]; exact hv)]
      exact ⟨_, rfl⟩
  · rw [s256rmul_secG_err _ (by rw [Nat.mod_mod_of_dvd _ dvd_rfl]; exact hu)]
    exact ⟨_, rfl⟩

/-- C3: the claim asserts `hash160(s) = ripemd160(sha256(s))` on the
caller-supplied bytes `s`.  The source instead computes
`hashlib.sha256(2)` — hashing the literal integer `2` and ignoring `s`
entirely — which raises `TypeError` on every call, so `hash160` never
returns a digest for any input. -/
theorem c3_hash160_ignores_input_and_raises (s : List Nat) :
    hash160 s = .error "TypeError: object supporting the buffer API required" := rfl

/-- C4: the claim asserts `encode_varint(i)` encodes `i` itself and
`read_varint` reads `i` back, for all `i < 2^64`.  At `i = 253` (the first
multi-byte case) the source serializes the literal `1`
(`int_to_little_endian(1, 2)`), so the encoding is `fd 01 00` and the
round trip yields `1`, not `253`.  (The `i ≥ 2^64` branch does raise
`ValueError: integer too large` as the claim says.) -/
theorem c4_encode_varint_encodes_one :
    encode_varint 253 = .ok [0xfd, 1, 0] ∧
    (do let bs ← encode_varint 253; read_varint bs :
        Except String (Nat × List Nat)) = .ok (1, []) ∧
    encode_varint (2 ^ 64) = .error "ValueError: integer too large" :=
  ⟨rfl, rfl, rfl⟩

/-- C5: the claim says a data push of length `L < 76` serializes as the
bare length byte — in particular a 75-byte push as `4b` followed by the
data.  The source's first branch tests `length < 75` (not `< 76`) and the
next one `length > 75`, so `L = 75` falls through every branch into
`raise ValueError('too long an cmd')`. -/
theorem c5_raw_serialize_75_byte_push_raises (d : List Nat)
    (h : d.length = 75) :
    raw_serialize [.data d] = .error "ValueError: too long an cmd" := by
  rw [raw_serialize]
  rw [h]
  rfl

theorem c5_raw_serialize_75_byte_push_raises_witness :
    raw_serialize [.data (List.replicate 75 0)] = .error "ValueError: too long an cmd" :=
  c5_raw_serialize_75_byte_push_raises (List.replicate 75 0) (by simp)

/-- C10: the claim (and the spec's five-case order) says adding a point
with `y = 0` to itself yields the point at infinity.  In the source the
`self == other` tangent branch is tested *before* the `y == 0` case, which
is dead code below it — and the tangent slope begins with
`3 * pow(self.x, 2)`, an `int * FieldElement` product that raises
`TypeError` (no `FieldElement.__rmul__`; with plain-int coordinates the
same branch divides by `2·y = 0` instead).  Concretely, `(6, 0)` lies on
`y² = x³ + 7` over `F_223` (the constructor accepts it), and adding it to
itself raises instead of returning infinity. -/
theorem c10_same_point_y_zero_raises :
    mkPt (some ⟨6, 223⟩) (some ⟨0, 223⟩) ⟨0, 223⟩ ⟨7, 223⟩ =
      .ok ⟨some ⟨6, 223⟩, some ⟨0, 223⟩, ⟨0, 223⟩, ⟨7, 223⟩⟩ ∧
    ptAdd ⟨some ⟨6, 223⟩, some ⟨0, 223⟩, ⟨0, 223⟩, ⟨7, 223⟩⟩
          ⟨some ⟨6, 223⟩, some ⟨0, 223⟩, ⟨0, 223⟩, ⟨7, 223⟩⟩ =
      .error "TypeError: unsupported operand type(s) for *: 'int' and 'FieldElement'" :=
  ⟨rfl, rfl⟩

/-- C6: the claim says the combined script `[sig, sec] ++ p2pkh`
evaluates to true when the signature and key match.  On this code the
evaluation raises for *every* `sig`, `sec`, `h160` and `z`: the
`OP_HASH160` handler calls `hash160`, which hashes the literal integer `2`
and raises `TypeError` (and even past that point, `OP_EQUALVERIFY` (136)
and `OP_CHECKSIG` (172) are absent from `OP_CODE_FUNCTIONS`, so the
dispatch would raise `KeyError`; the module itself cannot even be
imported, since script.py imports `op_equal`/`op_verify` that op.py does
not define). -/
theorem c6_p2pkh_evaluate_raises (sig sec h160 : List Nat) (z : Nat) :
    script_evaluate ([.data sig, .data sec] ++ p2pkh_script h160) z =
      .error "TypeError: object supporting the buffer API required" := rfl

/-- Parsing any stream that begins with the mainnet bytes `f9beb4d9` with
`testnet=True` fails the magic comparison (the parser expects
`NETWORK_MAGIC = 0b110907` for that flag). -/
theorem envParse_f9_true (rest : List Nat) :
    envParse (249 :: 190 :: 180 :: 217 :: rest) true =
      .error "SyntaxError: magic is not right" := rfl

/-- Parsing any stream that begins with `0b110907` with `testnet=False`
fails the magic comparison (the parser expects
`TESTNET_NETWORK_MAGIC = f9beb4d9` for that flag). -/
theorem envParse_0b_false (rest : List Nat) :
    envParse (11 :: 17 :: 9 :: 7 :: rest) false =
      .error "SyntaxError: magic is not right" := rfl

/-- C8: the claim says `parse(serialize(e), t)` returns an envelope equal
to `e`, with the documented magics used consistently and the checksum
computed over the payload.  On this code the round trip raises for every
command, payload and testnet flag: the constructor picks
`TESTNET_NETWORK_MAGIC` (which network.py sets to the *mainnet* bytes
`f9beb4d9`) when `testnet` and `NETWORK_MAGIC` (`0b110907`) otherwise,
while `parse` expects exactly the opposite constant for the same flag, so
the magic comparison always fails (`SyntaxError`); a payload of 2^32 or
more bytes instead makes `serialize` itself raise `OverflowError`.  (Had
the magic matched, `parse` would still raise `TypeError` computing
`hash256(payload_length)` — a checksum of the length integer, not of the
payload bytes.) -/
theorem c8_envelope_roundtrip_raises (c p : List Nat) (t : Bool) :
    ∃ e, (do
      let bs ← envSerialize (mkEnvelope c p t)
      envParse bs t : Except String NetworkEnvelope) = .error e := by
  by_cases hp : 256 ^ 4 ≤ p.length
  · refine ⟨"OverflowError: int too big to convert", ?_⟩
    simp only [envSerialize, mkEnvelope, int_to_little_endian, if_pos hp]
    rfl
  · refine ⟨"SyntaxError: magic is not right", ?_⟩
    cases t <;>
      simp only [envSerialize, mkEnvelope, int_to_little_endian, if_neg hp,
        NETWORK_MAGIC, TESTNET_NETWORK_MAGIC, List.cons_append,
        List.nil_append, Bind.bind, Except.bind]
    · exact envParse_0b_false _
    · exact envParse_f9_true _

/-- The final flag-bit loop accepts a leftover list iff every bit in it is
zero. -/
theorem any_ne_zero_eq_false_iff (fs : List Nat) :
    (fs.any (fun b => b ≠ 0) = false) ↔ (fs.all (fun b => b == 0) = true) := by
  induction fs with
  | nil => simp
  | cons f fs ih => simp [ih]

/-- C7 (counterexample): the claim says `populate_tree` never returns
normally when flag bits are left over, whatever their value.  For the
two-leaf tree (`total = 2`) with proof `flag_bits = [0, 0]`,
`hashes = [h]`, the walk consumes one flag bit and one hash to fill the
root and leaves the zero bit `[0]` unconsumed — and `populate_tree`
returns normally. -/
theorem c7_counterexample_leftover_zero_bit_accepted :
    isOkE (populate_tree 10 2 [0, 0] [List.replicate 32 0]) = true := rfl

/-- C7 (amended): after the walk fills the root, `populate_tree` raises
iff hashes are left over or some leftover flag *bit is nonzero*; leftover
*zero* flag bits are accepted silently (the source's final loop only
raises `if flag_bit != 0`).  Concretely on the two-leaf tree: a leftover
`1` bit raises, a leftover hash raises, and a leftover `0` bit returns
normally. -/
theorem c7_leftover_consumption_amended :
    (∀ (fuel total : Nat) (flags : List Nat) (hashes : List (List Nat))
       (st : MTState) (fs : List Nat) (hs : List (List Nat)),
      populateLoop fuel (initTree total) flags hashes = .ok (st, fs, hs) →
      (populate_tree fuel total flags hashes = .ok st ↔
        (hs = [] ∧ fs.all (fun b => b == 0) = true))) ∧
    populate_tree 10 2 [0, 1] [List.replicate 32 0] =
      .error "RuntimeError: flag bits not all consumed" ∧
    populate_tree 10 2 [0] [List.replicate 32 0, List.replicate 32 1] =
      .error "RuntimeError: hashes not all consumes" ∧
    isOkE (populate_tree 10 2 [0, 0] [List.replicate 32 0]) = true := by
  refine ⟨?_, rfl, rfl, rfl⟩
  intro fuel total flags hashes st fs hs hloop
  have hiff := any_ne_zero_eq_false_iff fs
  simp only [populate_tree, hloop, Bind.bind, Except.bind, populateChecks]
  by_cases hhs : hs.length ≠ 0
  · rw [if_pos hhs]
    constructor
    · intro h
      exact Except.noConfusion h
    · rintro ⟨h1, _⟩
      subst h1
      exact absurd rfl hhs
  · rw [if_neg hhs]
    by_cases hfs : (fs.any fun b => decide (b ≠ 0)) = true
    · rw [if_pos hfs]
      constructor
      · intro h
        exact Except.noConfusion h
      · rintro ⟨_, h2⟩
        rw [← hiff] at h2
        rw [h2] at hfs
        exact Bool.noConfusion hfs
    · rw [if_neg hfs]
      have hfs' : (fs.any fun b => decide (b ≠ 0)) = false := by
        cases h : (fs.any fun b => decide (b ≠ 0)) with
        | false => rfl
        | true => exact absurd h hfs
      constructor
      · intro _
        exact ⟨List.length_eq_zero.mp (by omega), hiff.mp hfs'⟩
      · intro _
        rfl

theorem c7_leftover_consumption_amended_witness :
    populate_tree 10 2 [0, 0] [List.replicate 32 0] =
      .ok ⟨2, 1, [[some (List.replicate 32 0)], [none, none]], -1, 0⟩ ↔
    (([] : List (List Nat)) = [] ∧ [0].all (fun b => b == 0) = true) :=
  c7_leftover_consumption_amended.1 10 2 [0, 0] [List.replicate 32 0]
    ⟨2, 1, [[some (List.replicate 32 0)], [none, none]], -1, 0⟩ [0] [] rfl

/-! ### Sanity lemmas for the embedded primitives -/

theorem powModAux_eq (fuel : Nat) :
    ∀ b e m, e < fuel → powModAux fuel b e m = b ^ e % m := by
  induction fuel with
  | zero => intro b e m h; omega
  | succ fuel ih =>
    intro b e m h
    rw [powModAux]
    by_cases he : e = 0
    · rw [if_pos he, he, pow_zero]
    · rw [if_neg he]
      have hd : e / 2 < e := Nat.div_lt_self (Nat.pos_of_ne_zero he) (by omega)
      rw [ih ((b * b) % m) (e / 2) m (by omega)]
      have hsq : ((b * b) % m) ^ (e / 2) % m = b ^ (2 * (e / 2)) % m := by
        rw [← Nat.pow_mod]
        congr 1
        rw [two_mul, pow_add, mul_pow]
      by_cases hodd : e % 2 = 1
      · rw [if_pos hodd, hsq]
        rw [Nat.mod_mul_mod]
        rw [← pow_succ]
        congr 2
        omega
      · rw [if_neg hodd, hsq]
        congr 2
        omega

/-- `powMod` agrees with Python's `pow(b, e, m)`. -/
theorem powMod_eq (b e m : Nat) : powMod b e m = b ^ e % m :=
  powModAux_eq (e + 1) b e m (by omega)

/-- FIPS 180-4 known-answer test: SHA-256 of the empty string. -/
theorem sha256_kat_empty :
    sha256 [] =
      [0xe3, 0xb0, 0xc4, 0x42, 0x98, 0xfc, 0x1c, 0x14, 0x9a, 0xfb, 0xf4, 0xc8,
       0x99, 0x6f, 0xb9, 0x24, 0x27, 0xae, 0x41, 0xe4, 0x64, 0x9b, 0x93, 0x4c,
       0xa4, 0x95, 0x99, 0x1b, 0x78, 0x52, 0xb8, 0x55] := by rfl

/-- FIPS 180-4 known-answer test: SHA-256 of `"abc"`. -/
theorem sha256_kat_abc :
    sha256 [0x61, 0x62, 0x63] =
      [0xba, 0x78, 0x16, 0xbf, 0x8f, 0x01, 0xcf, 0xea, 0x41, 0x41, 0x40, 0xde,
       0x5d, 0xae, 0x22, 0x23, 0xb0, 0x03, 0x61, 0xa3, 0x96, 0x17, 0x7a, 0x9c,
       0xb4, 0x10, 0xff, 0x61, 0xf2, 0x00, 0x15, 0xad] := by rfl

/-! ### Shape of SHA-256 digests -/

theorem shaRound_length (st : List Nat) (kw : Nat × Nat) :
    (shaRound st kw).length = st.length := by
  unfold shaRound
  split <;> simp

theorem foldl_shaRound_length (l : List (Nat × Nat)) (st : List Nat) :
    (l.foldl shaRound st).length = st.length := by
  induction l generalizing st with
  | nil => rfl
  | cons kw l ih => rw [List.foldl_cons, ih, shaRound_length]

theorem shaCompress_length (h block : List Nat) :
    (shaCompress h block).length = h.length := by
  unfold shaCompress
  rw [List.length_zipWith, foldl_shaRound_length]
  omega

theorem foldl_shaCompress_length (bs : List (List Nat)) (h : List Nat) :
    (bs.foldl shaCompress h).length = h.length := by
  induction bs generalizing h with
  | nil => rfl
  | cons b bs ih => rw [List.foldl_cons, ih, shaCompress_length]

theorem wordsToBytesBE_length (ws : List Nat) :
    (wordsToBytesBE ws).length = 4 * ws.length := by
  induction ws with
  | nil => rfl
  | cons w ws ih =>
    simp only [wordsToBytesBE, List.flatMap_cons] at *
    simp [ih]
    omega

theorem wordsToBytesBE_lt (ws : List Nat) :
    ∀ b ∈ wordsToBytesBE ws, b < 256 := by
  intro b hb
  simp only [wordsToBytesBE, List.mem_flatMap] at hb
  obtain ⟨w, _, hw⟩ := hb
  have h255 : ∀ x : Nat, x &&& 255 < 256 := fun x =>
    Nat.lt_succ_of_le (Nat.and_le_right)
  simp only [List.mem_cons, List.not_mem_nil, or_false] at hw
  rcases hw with h | h | h | h <;> subst h <;> exact h255 _

/-- Every SHA-256 digest is exactly 32 bytes. -/
theorem sha256_length (s : List Nat) : (sha256 s).length = 32 := by
  unfold sha256
  rw [wordsToBytesBE_length, foldl_shaCompress_length]
  rfl

/-- Every byte of a SHA-256 digest is below 256. -/
theorem sha256_lt (s : List Nat) : ∀ b ∈ sha256 s, b < 256 :=
  wordsToBytesBE_lt _

theorem hash256_length (s : List Nat) : (hash256 s).length = 32 :=
  sha256_length _

theorem hash256_lt (s : List Nat) : ∀ b ∈ hash256 s, b < 256 :=
  sha256_lt _

/-! ### Big-endian byte codec lemmas -/

theorem natOfBytesBE_append_singleton (bs : List Nat) (b : Nat) :
    natOfBytesBE (bs ++ [b]) = natOfBytesBE bs * 256 + b := by
  simp [natOfBytesBE, List.foldl_append]

theorem natOfBytesBE_lt (bs : List Nat) (hb : ∀ b ∈ bs, b < 256) :
    natOfBytesBE bs < 256 ^ bs.length := by
  induction bs using List.reverseRecOn with
  | nil => simp [natOfBytesBE]
  | append_singleton bs b ih =>
    rw [natOfBytesBE_append_singleton]
    have h1 : natOfBytesBE bs < 256 ^ bs.length :=
      ih (fun x hx => hb x (List.mem_append_left _ hx))
    have h2 : b < 256 := hb b (List.mem_append_right _ (List.mem_singleton_self b))
    rw [List.length_append, List.length_singleton, pow_succ]
    nlinarith

theorem beBytes_roundtrip (bs : List Nat) (hb : ∀ b ∈ bs, b < 256) :
    beBytes bs.length (natOfBytesBE bs) = bs := by
  induction bs using List.reverseRecOn with
  | nil => rfl
  | append_singleton bs b ih =>
    have h2 : b < 256 := hb b (List.mem_append_right _ (List.mem_singleton_self b))
    rw [natOfBytesBE_append_singleton, List.length_append, List.length_singleton]
    show beBytes (bs.length + 1) (natOfBytesBE bs * 256 + b) = bs ++ [b]
    rw [beBytes]
    have hdiv : (natOfBytesBE bs * 256 + b) / 256 = natOfBytesBE bs := by
      omega
    have hmod : (natOfBytesBE bs * 256 + b) % 256 = b := by
      omega
    rw [hdiv, hmod, ih (fun x hx => hb x (List.mem_append_left _ hx))]

/-! ### Base-58 lemmas -/

/-- The digit loop's fuel only needs to exceed the argument. -/
theorem b58DigitsAux_fuel (f1 : Nat) :
    ∀ f2 n, n < f1 → n < f2 → b58DigitsAux f1 n = b58DigitsAux f2 n := by
  induction f1 with
  | zero => intro f2 n h1; omega
  | succ f1 ih =>
    intro f2 n h1 h2
    match f2, h2 with
    | f2 + 1, h2 =>
      rw [b58DigitsAux, b58DigitsAux]
      by_cases hn : n = 0
      · rw [if_pos hn, if_pos hn]
      · rw [if_neg hn, if_neg hn]
        have hd : n / 58 < n := Nat.div_lt_self (Nat.pos_of_ne_zero hn) (by omega)
        rw [ih f2 (n / 58) (by omega) (by omega)]

theorem b58Digits_succ (n : Nat) (hn : n ≠ 0) :
    b58Digits n = b58Digits (n / 58) ++ [b58Char (n % 58)] := by
  unfold b58Digits
  rw [b58DigitsAux, if_neg hn]
  have hd : n / 58 < n := Nat.div_lt_self (Nat.pos_of_ne_zero hn) (by omega)
  rw [b58DigitsAux_fuel n (n / 58 + 1) (n / 58) (by omega) (by omega)]

theorem b58Index_b58Char : ∀ d, d < 58 → b58Index (b58Char d) = some d := by
  decide

theorem b58DecodeNum_append (xs ys : List Nat) (acc : Nat) :
    b58DecodeNum (xs ++ ys) acc =
      (b58DecodeNum xs acc).bind (fun m => b58DecodeNum ys m) := by
  induction xs generalizing acc with
  | nil => rfl
  | cons c cs ih =>
    rw [List.cons_append, b58DecodeNum, b58DecodeNum]
    cases b58Index c with
    | none => rfl
    | some i => exact ih _

/-- Decoding the digit string of `num` starting from accumulator `acc`
yields `acc · 58^(#digits) + num`. -/
theorem b58DecodeNum_digits (num : Nat) :
    ∀ acc, b58DecodeNum (b58Digits num) acc =
      .ok (acc * 58 ^ (b58Digits num).length + num) := by
  induction num using Nat.strong_induction_on with
  | _ num ih =>
    intro acc
    by_cases hn : num = 0
    · subst hn
      simp [b58Digits, b58DigitsAux, b58DecodeNum]
    · rw [b58Digits_succ num hn]
      have hd : num / 58 < num := Nat.div_lt_self (Nat.pos_of_ne_zero hn) (by omega)
      rw [b58DecodeNum_append, ih (num / 58) hd acc]
      rw [Except.bind]
      show b58DecodeNum [b58Char (num % 58)] _ = _
      simp only [b58DecodeNum, b58Index_b58Char (num % 58) (Nat.mod_lt _ (by omega))]
      congr 1
      simp only [List.length_append, List.length_singleton]
      rw [pow_succ]
      have := Nat.div_add_mod num 58
      ring_nf
      omega

/-- Leading `'1'` characters leave a zero accumulator at zero. -/
theorem b58DecodeNum_ones (n : Nat) (rest : List Nat) :
    b58DecodeNum (List.replicate n 49 ++ rest) 0 = b58DecodeNum rest 0 := by
  induction n with
  | zero => rfl
  | succ n ih =>
    rw [List.replicate_succ, List.cons_append, b58DecodeNum]
    have h49 : b58Index 49 = some 0 := by decide
    rw [h49]
    simpa using ih

/-- Decoding the Base58Check encoding of any 21-byte payload succeeds and
returns the payload *without its first byte* (`combined[1:-4]`). -/
theorem decode_encode_aux (p : List Nat) (hl : p.length = 21)
    (hb : ∀ b ∈ p, b < 256) :
    decode_base58 (encode_base58_checksum p) = .ok (p.drop 1) := by
  set chk := (hash256 p).take 4 with hchk
  have hchkl : chk.length = 4 := by
    rw [hchk, List.length_take, hash256_length]
    norm_num
  have hchkb : ∀ b ∈ chk, b < 256 := fun b hbmem =>
    hash256_lt p b (List.mem_of_mem_take hbmem)
  have hcl : (p ++ chk).length = 25 := by
    rw [List.length_append, hl, hchkl]
  have hcb : ∀ b ∈ p ++ chk, b < 256 := by
    intro b hbm
    rw [List.mem_append] at hbm
    rcases hbm with h | h
    · exact hb b h
    · exact hchkb b h
  have hnum : natOfBytesBE (p ++ chk) < 256 ^ 25 := by
    have := natOfBytesBE_lt (p ++ chk) hcb
    rwa [hcl] at this
  have henc : encode_base58_checksum p =
      List.replicate (b58ZeroCount (p ++ chk)) 49
        ++ b58Digits (natOfBytesBE (p ++ chk)) := rfl
  have hrt : beBytes 25 (natOfBytesBE (p ++ chk)) = p ++ chk := by
    have := beBytes_roundtrip (p ++ chk) hcb
    rwa [hcl] at this
  have hbytes : natToBytesBE (natOfBytesBE (p ++ chk)) 25 = .ok (p ++ chk) := by
    rw [natToBytesBE, if_neg (by omega), hrt]
  rw [henc]
  unfold decode_base58
  rw [b58DecodeNum_ones, b58DecodeNum_digits]
  simp only [Nat.zero_mul, Nat.zero_add, Bind.bind, Except.bind, hbytes]
  rw [hcl]
  have h21 : (25 : Nat) - 4 = 21 := rfl
  rw [h21]
  have htake : (p ++ chk).take 21 = p := List.take_left' hl
  have hdrop : (p ++ chk).drop 21 = chk := List.drop_left' hl
  rw [htake, hdrop]
  rw [if_neg (fun h => h rfl)]

/-- C9 (counterexample): the claim says
`decode_base58(encode_base58_checksum(p))` returns `p` itself, version
byte included.  For the 21-byte payload `00 07…07` it returns the 20-byte
`07…07` instead (the source returns `combined[1:-4]`, stripping the first
byte). -/
theorem bytes_lt_00_07 : ∀ b ∈ (0 :: List.replicate 20 7 : List Nat), b < 256 := by
  intro b hbm
  simp only [List.mem_cons] at hbm
  rcases hbm with rfl | h
  · omega
  · have := List.eq_of_mem_replicate h
    omega

theorem c9_counterexample_version_byte_stripped :
    decode_base58 (encode_base58_checksum (0 :: List.replicate 20 7)) ≠
      .ok (0 :: List.replicate 20 7) := by
  rw [decode_encode_aux (0 :: List.replicate 20 7) (by simp) bytes_lt_00_07]
  intro h
  have hinj := Except.ok.inj h
  have hlen := congrArg List.length hinj
  simp at hlen

set_option maxRecDepth 100000 in
/-- C9 (amended): for every 21-byte payload `p` (the version-prefixed
hash-160 payloads Base58Check is used for here),
`decode_base58(encode_base58_checksum(p))` returns `p` *without its first
(version) byte* — not `p` itself — and decoding an encoding whose
characters have been altered so the 4-byte checksum no longer matches
raises `ValueError` (`BadChecksum`), shown here on the encoding of
`00 07…07` with its last character flipped. -/
theorem c9_base58check_roundtrip_strips_version :
    (∀ p : List Nat, p.length = 21 → (∀ b ∈ p, b < 256) →
      decode_base58 (encode_base58_checksum p) = .ok (p.drop 1)) ∧
    decode_base58 ((encode_base58_checksum (0 :: List.replicate 20 7)).dropLast ++ [88]) =
      .error "ValueError: bad address" :=
  ⟨decode_encode_aux, rfl⟩

theorem c9_base58check_roundtrip_strips_version_witness :
    decode_base58 (encode_base58_checksum (0 :: List.replicate 20 7)) =
      .ok (List.replicate 20 7) := by
  have h := c9_base58check_roundtrip_strips_version.1 (0 :: List.replicate 20 7)
    (by simp) bytes_lt_00_07
  simpa using h

end Pbjs

